import Mathlib

/-!
Verification development for the `robotwebtools` bundled client
(`src/dist/robotwebtools.js`): a shallow embedding of the ROS connection
object (socket lifecycle, deferred sends, the EventEmitter2-based
correlation router, topic channels, service and param clients) and of the
action client's goal table, together with theorems about the testable
properties of that code.

Host primitives that the source calls into (`JSON.parse`, `JSON.stringify`,
`WebSocket`, the canvas-based PNG decompressor) are modelled explicitly:
`JSON.stringify` by an executable encoder on the JS value model,
`JSON.parse` of inbound frames by the frame's parse outcome (the source
never catches its exceptions), and the socket by its ready state plus the
log of strings written to it.
-/

namespace RWT

/-- Model of a JavaScript/JSON value as the source manipulates them:
`null`, booleans, (integral) numbers, strings, arrays and plain objects
whose own enumerable fields are kept as an insertion-ordered association
list. -/
inductive JsValue where
  | null : JsValue
  | bool (b : Bool) : JsValue
  | num (n : Int) : JsValue
  | str (s : String) : JsValue
  | arr (xs : List JsValue) : JsValue
  | obj (fields : List (String × JsValue)) : JsValue
deriving Repr

/-- Decimal digit to character, as the host renders numbers. -/
def digitChar (d : Nat) : Char :=
  match d with
  | 0 => '0' | 1 => '1' | 2 => '2' | 3 => '3' | 4 => '4'
  | 5 => '5' | 6 => '6' | 7 => '7' | 8 => '8' | 9 => '9'
  | _ => '*'

/-- Fuel-driven accumulator for the decimal rendering of a natural number
(least significant digit processed first, pushed onto the front of the
accumulator, so the result is most-significant-first). -/
def natReprAux : Nat → Nat → List Char → List Char
  | 0, _, acc => acc
  | fuel + 1, n, acc =>
    if n = 0 then acc else natReprAux fuel (n / 10) (digitChar (n % 10) :: acc)

/-- Decimal rendering of a natural number, as the host's number-to-string
conversion produces for the connection's non-negative `idCounter`. -/
def natRepr (n : Nat) : String :=
  if n = 0 then "0" else ⟨natReprAux n n []⟩

/-- Decimal rendering of an integer (the host's number-to-string
conversion for integral values). -/
def intRepr : Int → String
  | Int.ofNat n => natRepr n
  | Int.negSucc n => "-" ++ natRepr (n + 1)

/-- A call ID as the source builds one: role prefix, `':'`, topic/service
name, `':'`, then the decimal value of the connection's counter
(e.g. `'subscribe:' + topic.name + ':' + ros.idCounter`). -/
def makeId (pfx nm : String) (c : Nat) : String :=
  pfx ++ ":" ++ nm ++ ":" ++ natRepr c

/-- JSON escaping of a single character inside a string literal, per the
host's `JSON.stringify`. -/
def jsonEscape (c : Char) : String :=
  if c = '"' then "\\\""
  else if c = '\\' then "\\\\"
  else if c = '\n' then "\\n"
  else if c = '\t' then "\\t"
  else if c = '\r' then "\\r"
  else String.mk [c]

/-- The host's `JSON.stringify` applied to a string value: the escaped
characters wrapped in double quotes. In particular
`jsonStringifyString "" = "\x22\x22"`, the two-character string of two
double quotes. -/
def jsonStringifyString (s : String) : String :=
  "\"" ++ (s.data.map jsonEscape).foldl (· ++ ·) "" ++ "\""

mutual

/-- The host's `JSON.stringify` on the JS value model (the source calls it
in `callOnConnection` and in the param client). -/
def jsonStringify : JsValue → String
  | JsValue.null => "null"
  | JsValue.bool b => cond b "true" "false"
  | JsValue.num i => intRepr i
  | JsValue.str s => jsonStringifyString s
  | JsValue.arr xs => "[" ++ jsonStringifyArr xs ++ "]"
  | JsValue.obj fs => "\x7b" ++ jsonStringifyObj fs ++ "\x7d"

/-- Comma-separated encoding of array members. -/
def jsonStringifyArr : List JsValue → String
  | [] => ""
  | [v] => jsonStringify v
  | v :: vs => jsonStringify v ++ "," ++ jsonStringifyArr vs

/-- Comma-separated encoding of object fields. -/
def jsonStringifyObj : List (String × JsValue) → String
  | [] => ""
  | [(k, v)] => jsonStringifyString k ++ ":" ++ jsonStringify v
  | (k, v) :: fs => jsonStringifyString k ++ ":" ++ jsonStringify v ++ "," ++ jsonStringifyObj fs

end

/-- The field-copying constructor pattern shared by `ros.Message`,
`ros.ServiceRequest` and `ros.ServiceResponse`: the new object receives
the own enumerable fields of `values` (`Object.keys(values).forEach(...)`).
For an object these are its fields in order; for an array the indices
`"0"`, `"1"`, ... mapped to the elements; for a string the indices mapped
to its one-character substrings; numbers and booleans have no own
enumerable fields, and a falsy `values` (null) is skipped by the
`if (values)` guard. -/
def jsCopyFields : JsValue → JsValue
  | JsValue.obj fs => JsValue.obj fs
  | JsValue.arr xs => JsValue.obj (xs.enum.map (fun p => (natRepr p.1, p.2)))
  | JsValue.str s => JsValue.obj (s.data.enum.map (fun p => (natRepr p.1, JsValue.str (String.mk [p.2]))))
  | _ => JsValue.obj []

/-- Property access `v[k]` on a JS value: the named own field of an
object. An absent field (JS `undefined`) is modelled as `null`. -/
def jsGetField (v : JsValue) (k : String) : JsValue :=
  match v with
  | JsValue.obj fs =>
    match fs.lookup k with
    | some x => x
    | none => JsValue.null
  | _ => JsValue.null

/-- An outbound envelope as the source assembles it (the `call` objects
handed to `callOnConnection`). -/
inductive Call where
  | subscribe (id type topic compression : String) (throttle_rate : Int) : Call
  | unsubscribe (id topic : String) : Call
  | advertise (id type topic : String) : Call
  | unadvertise (id topic : String) : Call
  | publish (id topic : String) (msg : JsValue) : Call
  | callService (id service : String) (args : List JsValue) : Call
deriving Repr

/-- A listener registered on the connection's EventEmitter2 instance
(`ros.on` / `ros.once`), identified by the closure the source installs:

* `topicRelay tid` — the closure `topic.subscribe` registers under the
  topic name: it wraps the payload in `new ros.Message(data)` and emits
  `'message'` on topic object `tid`, which invokes each of that topic's
  local message handlers;
* `serviceOnce cb` — the one-shot closure `callService` registers under
  the generated call ID: it builds `new ros.ServiceResponse(data)` and
  invokes user callback `cb` with it;
* `paramGetOnce cb` — the one-shot closure `param.get`'s service call
  registers: it `JSON.parse`s the response's `value` field and invokes
  user callback `cb` with the decoded value;
* `ignoreOnce` — the empty one-shot closure `param.set` registers
  (`function() {}`);
* `deferredSend msg` — the one-shot closure `callOnConnection` registers
  under `'connection'` when the socket is not open: it writes the captured
  serialized envelope to the socket. -/
inductive RosListener where
  | topicRelay (tid : Nat) : RosListener
  | serviceOnce (cb : Nat) : RosListener
  | paramGetOnce (cb : Nat) : RosListener
  | ignoreOnce : RosListener
  | deferredSend (msg : Call) : RosListener
deriving Repr

/-- One entry of the emitter's listener table: event key, listener, and
whether it was registered with `once` (consumed on first notification). -/
structure RosEntry where
  key : String
  listener : RosListener
  once : Bool
deriving Repr

/-- A `ros.Topic` object's state: configuration fields set by the
constructor, the `isAdvertised` flag, and the handlers registered on the
topic's own local `'message'` event (user callbacks, by ID). -/
structure TopicObj where
  name : String
  messageType : String
  compression : String
  throttle_rate : Int
  isAdvertised : Bool
  localHandlers : List Nat
deriving Repr

/-- The state of one ROS connection object together with its socket:
the message-ID counter, the socket's ready state, the topic objects
created on this connection (indexed by position), the EventEmitter2
listener table, the log of envelopes written to the socket, the log of
user-callback invocations `(callback, argument)`, and the history of call
IDs the connection has generated (appended exactly where the source forms
an ID string). -/
structure World where
  idCounter : Nat
  socketOpen : Bool
  topics : List TopicObj
  rosListeners : List RosEntry
  sent : List Call
  invocations : List (Nat × JsValue)
  generatedIds : List String

/-- A fresh connection: `ros.idCounter = 0`, no listeners, nothing sent,
with the given pre-constructed topic objects and socket state. -/
def mkWorld (topics : List TopicObj) (opened : Bool) : World :=
  { idCounter := 0, socketOpen := opened, topics := topics,
    rosListeners := [], sent := [], invocations := [], generatedIds := [] }

/-- Run one listener on a payload. `parse` models the host's `JSON.parse`
(applied by the `param.get` closure to the response's `value` field). -/
def runListener (parse : JsValue → JsValue) (w : World) (l : RosListener) (v : JsValue) : World :=
  match l with
  | RosListener.topicRelay tid =>
    match w.topics.get? tid with
    | some t =>
      { w with invocations := w.invocations ++ t.localHandlers.map (fun h => (h, jsCopyFields v)) }
    | none => w
  | RosListener.serviceOnce cb =>
    { w with invocations := w.invocations ++ [(cb, jsCopyFields v)] }
  | RosListener.paramGetOnce cb =>
    { w with invocations := w.invocations ++ [(cb, parse (jsGetField (jsCopyFields v) "value"))] }
  | RosListener.ignoreOnce => w
  | RosListener.deferredSend c =>
    { w with sent := w.sent ++ [c] }

/-- `ros.emit(key, v)`: notify, in registration order, the listeners
registered under `key`; each listener registered with `once` removes
itself as it is consumed. -/
def emit (parse : JsValue → JsValue) (w : World) (key : String) (v : JsValue) : World :=
  let fired := (w.rosListeners.filter (fun e => e.key == key)).map RosEntry.listener
  let w1 := { w with rosListeners := w.rosListeners.filter (fun e => !(e.key == key && e.once)) }
  fired.foldl (fun acc l => runListener parse acc l v) w1

/-- An inbound envelope after JSON decoding, as `handleMessage` inspects
it: `publish` and `service_response` are dispatched, any other op is
ignored. -/
inductive Inbound where
  | publish (topic : String) (msg : JsValue) : Inbound
  | serviceResponse (id : String) (values : JsValue) : Inbound
  | other : Inbound

/-- `handleMessage`: route a decoded envelope — a `publish` to the
listeners keyed by its topic, a `service_response` to the listener keyed
by its ID. -/
def dispatch (parse : JsValue → JsValue) (w : World) : Inbound → World
  | Inbound.publish topic msg => emit parse w topic msg
  | Inbound.serviceResponse id values => emit parse w id values
  | Inbound.other => w

/-- An inbound socket frame, modelled by the outcome of the host
`JSON.parse` calls the source makes on it: `malformed` when the outer
parse throws; `ok` when it yields a non-`png` envelope; `png` carrying
the outcome of parsing the decompressed payload (the source parses the
codec's output with a second `JSON.parse`). -/
inductive Frame where
  | malformed : Frame
  | ok (e : Inbound) : Frame
  | png (inner : Except Unit Inbound) : Frame

/-- `onMessage`: the socket's message handler. The source wraps neither
`JSON.parse` call in a `try`/`catch`, so a malformed payload at either
level aborts the handler with the parse exception (`Except.error`) before
anything is dispatched. -/
def onMessage (parse : JsValue → JsValue) (w : World) : Frame → Except Unit World
  | Frame.malformed => Except.error ()
  | Frame.ok e => Except.ok (dispatch parse w e)
  | Frame.png (Except.ok e) => Except.ok (dispatch parse w e)
  | Frame.png (Except.error _) => Except.error ()

/-- Generate a fresh call ID: `ros.idCounter++` followed by forming
`pfx + ':' + nm + ':' + ros.idCounter`. The generated ID is also appended
to the connection's ID history. -/
def freshId (w : World) (pfx nm : String) : World × String :=
  let c := w.idCounter + 1
  let id := makeId pfx nm c
  ({ w with idCounter := c, generatedIds := w.generatedIds ++ [id] }, id)

/-- `callOnConnection(message)`: write the serialized envelope now if the
socket is open, otherwise register a one-shot `'connection'` listener
that writes it on the next open. -/
def callOnConnection (w : World) (c : Call) : World :=
  if w.socketOpen then { w with sent := w.sent ++ [c] }
  else { w with rosListeners := w.rosListeners ++ [⟨"connection", RosListener.deferredSend c, true⟩] }

/-- The socket's `onopen` handler firing: the socket becomes open and
`ros.emit('connection', event)` runs. -/
def fireConnection (parse : JsValue → JsValue) (w : World) : World :=
  emit parse { w with socketOpen := true } "connection" JsValue.null

/-- `topic.subscribe(callback)`: register `callback` on the topic's local
`'message'` event, register the relay closure under the topic name on the
connection, then send a `subscribe` envelope with a fresh ID. -/
def subscribeOp (w : World) (tid : Nat) (cb : Nat) : World :=
  match w.topics.get? tid with
  | none => w
  | some t =>
    let w1 := { w with topics := w.topics.set tid { t with localHandlers := t.localHandlers ++ [cb] } }
    let w2 := { w1 with rosListeners := w1.rosListeners ++ [⟨t.name, RosListener.topicRelay tid, false⟩] }
    let fr := freshId w2 "subscribe" t.name
    callOnConnection fr.1 (Call.subscribe fr.2 t.messageType t.name t.compression t.throttle_rate)

/-- `topic.unsubscribe()`: `ros.removeAllListeners([topic.name])` — every
listener keyed by the topic name is removed — then send an `unsubscribe`
envelope with a fresh ID. -/
def unsubscribeOp (w : World) (tid : Nat) : World :=
  match w.topics.get? tid with
  | none => w
  | some t =>
    let w1 := { w with rosListeners := w.rosListeners.filter (fun e => !(e.key == t.name)) }
    let fr := freshId w1 "unsubscribe" t.name
    callOnConnection fr.1 (Call.unsubscribe fr.2 t.name)

/-- `topic.advertise()`: send an `advertise` envelope with a fresh ID and
set `isAdvertised = true`. -/
def advertiseOp (w : World) (tid : Nat) : World :=
  match w.topics.get? tid with
  | none => w
  | some t =>
    let fr := freshId w "advertise" t.name
    let w2 := callOnConnection fr.1 (Call.advertise fr.2 t.messageType t.name)
    { w2 with topics := w2.topics.set tid { t with isAdvertised := true } }

/-- `topic.unadvertise()`: send an `unadvertise` envelope with a fresh ID
and set `isAdvertised = false`. -/
def unadvertiseOp (w : World) (tid : Nat) : World :=
  match w.topics.get? tid with
  | none => w
  | some t =>
    let fr := freshId w "unadvertise" t.name
    let w2 := callOnConnection fr.1 (Call.unadvertise fr.2 t.name)
    { w2 with topics := w2.topics.set tid { t with isAdvertised := false } }

/-- `topic.publish(message)`: advertise first if the topic is not yet
advertised, then send a `publish` envelope with a fresh ID. -/
def publishOp (w : World) (tid : Nat) (msg : JsValue) : World :=
  match w.topics.get? tid with
  | none => w
  | some t =>
    let w1 := if t.isAdvertised then w else advertiseOp w tid
    let fr := freshId w1 "publish" t.name
    callOnConnection fr.1 (Call.publish fr.2 t.name msg)

/-- The common shape of `service.callService`: generate a fresh ID,
register the given one-shot listener under it, and send a `call_service`
envelope with the flattened arguments. -/
def callServiceCore (w : World) (svc : String) (args : List JsValue) (mk : RosListener) :
    World × String :=
  let fr := freshId w "call_service" svc
  let w2 := { fr.1 with rosListeners := fr.1.rosListeners ++ [⟨fr.2, mk, true⟩] }
  (callOnConnection w2 (Call.callService fr.2 svc args), fr.2)

/-- `service.callService(request, callback)`: the request object's own
field values are flattened, in key order, into the positional `args`
list; the one-shot response listener wraps the response values in a
`ServiceResponse` and invokes `callback`. -/
def callServiceOp (w : World) (svc : String) (request : List (String × JsValue)) (cb : Nat) :
    World :=
  (callServiceCore w svc (request.map Prod.snd) (RosListener.serviceOnce cb)).1

/-- `param.get(callback)`: a service call to `/rosapi/get_param` whose
request is `{ name: param.name, value: JSON.stringify('') }`; the
response listener decodes the returned `value` field with `JSON.parse`
before invoking `callback`. -/
def paramGetOp (w : World) (paramName : String) (cb : Nat) : World :=
  (callServiceCore w "/rosapi/get_param"
    ([("name", JsValue.str paramName),
      ("value", JsValue.str (jsonStringifyString ""))].map Prod.snd)
    (RosListener.paramGetOnce cb)).1

/-- `param.set(value)`: a service call to `/rosapi/set_param` whose
request is `{ name: param.name, value: JSON.stringify(value) }`; the
response callback is the empty function. -/
def paramSetOp (w : World) (paramName : String) (v : JsValue) : World :=
  (callServiceCore w "/rosapi/set_param"
    ([("name", JsValue.str paramName),
      ("value", JsValue.str (jsonStringify v))].map Prod.snd)
    RosListener.ignoreOnce).1

/-- One application-level operation on the connection, for reasoning about
interleavings. -/
inductive Op where
  | subscribe (tid cb : Nat) : Op
  | unsubscribe (tid : Nat) : Op
  | advertise (tid : Nat) : Op
  | unadvertise (tid : Nat) : Op
  | publish (tid : Nat) (msg : JsValue) : Op
  | callService (svc : String) (request : List (String × JsValue)) (cb : Nat) : Op

/-- Run one operation. -/
def runOp (w : World) : Op → World
  | Op.subscribe tid cb => subscribeOp w tid cb
  | Op.unsubscribe tid => unsubscribeOp w tid
  | Op.advertise tid => advertiseOp w tid
  | Op.unadvertise tid => unadvertiseOp w tid
  | Op.publish tid msg => publishOp w tid msg
  | Op.callService svc request cb => callServiceOp w svc request cb

/-- Run a finite interleaving of operations. -/
def runOps (w : World) (ops : List Op) : World :=
  ops.foldl runOp w

/-- A warning emitted by the `ros.Topic` constructor's validation. -/
inductive TWarning where
  | badCompression (c : String) : TWarning
  | negThrottle (r : Int) : TWarning
deriving Repr, DecidableEq

/-- The options object passed to `new ros.Topic(options)`; `none` models
an absent (undefined) key. -/
structure TopicOptions where
  name : String := ""
  messageType : String := ""
  compression : Option String := none
  throttle_rate : Option Int := none

/-- The `ros.Topic` constructor: defaults `compression` to `'none'` and
`throttle_rate` to `0` (JS `||` defaulting, so a falsy empty string or
zero also defaults), warns on a compression mode other than `'png'` or
`'none'` but leaves it as configured, and warns on a negative throttle
rate and clamps it to `0`. Returns the constructed topic object and the
warnings emitted. -/
def mkTopic (o : TopicOptions) : TopicObj × List TWarning :=
  let comp := match o.compression with
    | none => "none"
    | some c => if c = "" then "none" else c
  let tr : Int := match o.throttle_rate with
    | none => 0
    | some v => v
  let w1 : List TWarning :=
    if comp ≠ "" ∧ comp ≠ "png" ∧ comp ≠ "none" then [TWarning.badCompression comp] else []
  let trw : Int × List TWarning := if tr < 0 then (0, [TWarning.negThrottle tr]) else (tr, [])
  ({ name := o.name, messageType := o.messageType, compression := comp,
     throttle_rate := trw.1, isAdvertised := false, localHandlers := [] },
   w1 ++ trw.2)

/-- One entry of a `GoalStatusArray`'s `status_list` (and the `status`
field of feedback/result messages): the source reads
`status.goal_id.id` and passes the whole entry on. `payload` stands for
the entry's remaining fields. -/
structure GoalStatus where
  goal_id_id : String
  payload : JsValue
deriving Repr

/-- A message on the action server's `result` topic: the source reads
`resultMessage.status.goal_id.id`, `resultMessage.status`, and
`resultMessage.result`. -/
structure ResultMsg where
  status : GoalStatus
  result : JsValue

/-- A message on the action server's `feedback` topic. -/
structure FeedbackMsg where
  status : GoalStatus
  feedback : JsValue

/-- A goal's state, as the handlers the `Goal` constructor installs
maintain it: `on('status')` records the last status, `on('result')` sets
`isFinished` and records the result, `on('feedback')` records the last
feedback. -/
structure Goal where
  isFinished : Bool
  status : Option GoalStatus
  result : Option JsValue
  feedback : Option JsValue

/-- An event emitted on a goal (what a user listener registered on that
goal observes), in emission order. -/
inductive AEvent where
  | status (goalId : String) (s : GoalStatus) : AEvent
  | result (goalId : String) (r : JsValue) : AEvent
  | feedback (goalId : String) (f : JsValue) : AEvent
  | timeout (goalId : String) : AEvent

/-- The action client's goal table (`actionClient.goals`, keyed by goal
ID) together with the log of goal events emitted. -/
structure ActionState where
  goals : List (String × Goal)
  events : List AEvent

/-- Look up `actionClient.goals[gid]`. -/
def getGoal (st : ActionState) (gid : String) : Option Goal :=
  st.goals.lookup gid

/-- Replace the goal stored under `gid` (all entries with that key, which
is unique in a JS object). -/
def updateGoal (goals : List (String × Goal)) (gid : String) (g : Goal) :
    List (String × Goal) :=
  goals.map (fun p => if p.1 = gid then (p.1, g) else p)

/-- `goal.emit('status', s)` for the goal stored under `gid`, if any: the
constructor-installed handler records the status, and the emission is
visible to user listeners. -/
def goalEmitStatus (st : ActionState) (gid : String) (s : GoalStatus) : ActionState :=
  match getGoal st gid with
  | none => st
  | some g =>
    { goals := updateGoal st.goals gid { g with status := some s },
      events := st.events ++ [AEvent.status gid s] }

/-- The status-topic subscription handler: for each entry of
`statusMessage.status_list`, if a goal with that `goal_id.id` is in the
table, emit `'status'` on it (entries for unknown IDs are ignored). -/
def statusHandle (st : ActionState) (status_list : List GoalStatus) : ActionState :=
  status_list.foldl (fun acc s => goalEmitStatus acc s.goal_id_id s) st

/-- The result-topic subscription handler: look up the goal by
`resultMessage.status.goal_id.id`; if present, emit `'status'` with the
enclosing status and then `'result'` with the result payload — which the
constructor-installed handler answers by setting `isFinished = true` and
recording the result. -/
def resultHandle (st : ActionState) (rm : ResultMsg) : ActionState :=
  let gid := rm.status.goal_id_id
  match getGoal st gid with
  | none => st
  | some _ =>
    let st1 := goalEmitStatus st gid rm.status
    match getGoal st1 gid with
    | none => st1
    | some g1 =>
      { goals := updateGoal st1.goals gid { g1 with isFinished := true, result := some rm.result },
        events := st1.events ++ [AEvent.result gid rm.result] }

/-- The feedback-topic subscription handler: look up by
`feedbackMessage.status.goal_id.id`; if present, emit `'status'` then
`'feedback'`. -/
def feedbackHandle (st : ActionState) (fm : FeedbackMsg) : ActionState :=
  let gid := fm.status.goal_id_id
  match getGoal st gid with
  | none => st
  | some _ =>
    let st1 := goalEmitStatus st gid fm.status
    match getGoal st1 gid with
    | none => st1
    | some g1 =>
      { goals := updateGoal st1.goals gid { g1 with feedback := some fm.feedback },
        events := st1.events ++ [AEvent.feedback gid fm.feedback] }

/-- The per-goal timer armed by `goal.send(timeout)` elapsing: if the
goal is still not finished, emit a goal-level `'timeout'` event (the
timer alters no other goal state). -/
def goalTimerFire (st : ActionState) (gid : String) : ActionState :=
  match getGoal st gid with
  | none => st
  | some g =>
    if g.isFinished then st
    else { st with events := st.events ++ [AEvent.timeout gid] }

/-! ### Decimal rendering and call-ID lemmas -/

theorem digitChar_inj {a b : Nat} (ha : a < 10) (hb : b < 10)
    (h : digitChar a = digitChar b) : a = b := by
  interval_cases a <;> interval_cases b <;> revert h <;> decide

theorem digitChar_ne_colon {d : Nat} (hd : d < 10) : digitChar d ≠ ':' := by
  interval_cases d <;> decide

theorem natReprAux_eq (fuel : Nat) :
    ∀ n acc, n ≤ fuel →
      natReprAux fuel n acc = ((Nat.digits 10 n).map digitChar).reverse ++ acc := by
  induction fuel with
  | zero =>
    intro n acc hn
    have : n = 0 := Nat.le_zero.mp hn
    subst this
    simp [natReprAux]
  | succ fuel ih =>
    intro n acc hn
    by_cases h0 : n = 0
    · subst h0; simp [natReprAux]
    · have hpos : 0 < n := Nat.pos_of_ne_zero h0
      have hdiv : n / 10 ≤ fuel := by
        have : n / 10 < n := Nat.div_lt_self hpos (by norm_num)
        omega
      have hdig : Nat.digits 10 n = n % 10 :: Nat.digits 10 (n / 10) :=
        Nat.digits_def' (by norm_num) hpos
      rw [natReprAux]
      simp only [h0, if_false]
      rw [ih (n / 10) (digitChar (n % 10) :: acc) hdiv, hdig]
      simp

theorem natRepr_data (n : Nat) :
    (natRepr n).data =
      if n = 0 then ['0'] else ((Nat.digits 10 n).map digitChar).reverse := by
  by_cases h0 : n = 0
  · subst h0; simp [natRepr]
  · simp only [natRepr, h0, if_false]
    rw [natReprAux_eq n n [] (Nat.le_refl n)]
    simp

theorem colon_not_mem_natRepr (n : Nat) : ':' ∉ (natRepr n).data := by
  rw [natRepr_data]
  by_cases h0 : n = 0
  · simp [h0]
  · simp only [h0, if_false, List.mem_reverse, List.mem_map]
    rintro ⟨d, hd, hdc⟩
    have : d < 10 := Nat.digits_lt_base (by norm_num) hd
    exact digitChar_ne_colon this hdc

theorem map_digitChar_inj :
    ∀ (l₁ l₂ : List Nat), (∀ x ∈ l₁, x < 10) → (∀ x ∈ l₂, x < 10) →
      l₁.map digitChar = l₂.map digitChar → l₁ = l₂ := by
  intro l₁
  induction l₁ with
  | nil => intro l₂ _ _ h; cases l₂ <;> simp_all
  | cons a t ih =>
    intro l₂ h1 h2 h
    cases l₂ with
    | nil => simp at h
    | cons b t2 =>
      simp only [List.map_cons, List.cons.injEq] at h
      have ha : a < 10 := h1 a (List.mem_cons_self a t)
      have hb : b < 10 := h2 b (List.mem_cons_self b t2)
      have hab : a = b := digitChar_inj ha hb h.1
      have ht : t = t2 := ih t2 (fun x hx => h1 x (List.mem_cons_of_mem a hx))
        (fun x hx => h2 x (List.mem_cons_of_mem b hx)) h.2
      rw [hab, ht]

theorem natRepr_inj {m n : Nat} (h : natRepr m = natRepr n) : m = n := by
  have hd : (natRepr m).data = (natRepr n).data := congrArg String.data h
  rw [natRepr_data, natRepr_data] at hd
  by_cases hm : m = 0 <;> by_cases hn : n = 0
  · rw [hm, hn]
  · exfalso
    simp only [hm, if_true, hn, if_false] at hd
    have hmap : (Nat.digits 10 n).map digitChar = ['0'] := by
      have := congrArg List.reverse hd
      simpa using this.symm
    have hlen : (Nat.digits 10 n).length = 1 := by
      have := congrArg List.length hmap
      simpa using this
    obtain ⟨d, hds⟩ : ∃ d, Nat.digits 10 n = [d] := by
      cases hdig : Nat.digits 10 n with
      | nil => rw [hdig] at hlen; simp at hlen
      | cons x t =>
        rw [hdig] at hlen
        simp at hlen
        exact ⟨x, by rw [hlen]⟩
    rw [hds] at hmap
    simp at hmap
    have hd10 : d < 10 := Nat.digits_lt_base (by norm_num) (hds ▸ List.mem_singleton_self d)
    have hd0 : d = 0 := digitChar_inj hd10 (by norm_num) (by simpa using hmap)
    have : n = Nat.ofDigits 10 (Nat.digits 10 n) := (Nat.ofDigits_digits 10 n).symm
    rw [hds, hd0] at this
    simp [Nat.ofDigits] at this
    exact hn this
  · exfalso
    simp only [hm, if_false, hn, if_true] at hd
    have hmap : (Nat.digits 10 m).map digitChar = ['0'] := by
      have := congrArg List.reverse hd
      simpa using this
    have hlen : (Nat.digits 10 m).length = 1 := by
      have := congrArg List.length hmap
      simpa using this
    obtain ⟨d, hds⟩ : ∃ d, Nat.digits 10 m = [d] := by
      cases hdig : Nat.digits 10 m with
      | nil => rw [hdig] at hlen; simp at hlen
      | cons x t =>
        rw [hdig] at hlen
        simp at hlen
        exact ⟨x, by rw [hlen]⟩
    rw [hds] at hmap
    simp at hmap
    have hd10 : d < 10 := Nat.digits_lt_base (by norm_num) (hds ▸ List.mem_singleton_self d)
    have hd0 : d = 0 := digitChar_inj hd10 (by norm_num) (by simpa using hmap)
    have : m = Nat.ofDigits 10 (Nat.digits 10 m) := (Nat.ofDigits_digits 10 m).symm
    rw [hds, hd0] at this
    simp [Nat.ofDigits] at this
    exact hm this
  · simp only [hm, if_false, hn, if_false] at hd
    have hmap := List.reverse_injective hd
    have hdig : Nat.digits 10 m = Nat.digits 10 n :=
      map_digitChar_inj _ _ (fun x hx => Nat.digits_lt_base (by norm_num) hx)
        (fun x hx => Nat.digits_lt_base (by norm_num) hx) hmap
    have := congrArg (Nat.ofDigits 10) hdig
    rwa [Nat.ofDigits_digits, Nat.ofDigits_digits] at this

theorem sep_suffix_inj :
    ∀ (u₁ u₂ r₁ r₂ : List Char), ':' ∉ r₁ → ':' ∉ r₂ →
      u₁ ++ ':' :: r₁ = u₂ ++ ':' :: r₂ → r₁ = r₂ := by
  intro u₁
  induction u₁ with
  | nil =>
    intro u₂ r₁ r₂ h1 h2 h
    cases u₂ with
    | nil => simpa using h
    | cons c t =>
      exfalso
      simp only [List.nil_append, List.cons_append, List.cons.injEq] at h
      apply h1
      rw [h.2]
      exact List.mem_append_right t (List.mem_cons_self ':' r₂)
  | cons c t ih =>
    intro u₂ r₁ r₂ h1 h2 h
    cases u₂ with
    | nil =>
      exfalso
      simp only [List.cons_append, List.nil_append, List.cons.injEq] at h
      apply h2
      rw [← h.2]
      exact List.mem_append_right t (List.mem_cons_self ':' r₁)
    | cons c2 t2 =>
      simp only [List.cons_append, List.cons.injEq] at h
      exact ih t2 r₁ r₂ h1 h2 h.2

theorem makeId_data (pfx nm : String) (c : Nat) :
    (makeId pfx nm c).data =
      (pfx.data ++ ':' :: nm.data) ++ ':' :: (natRepr c).data := by
  simp [makeId, String.data_append]

theorem makeId_counter_inj {p₁ n₁ p₂ n₂ : String} {c₁ c₂ : Nat}
    (h : makeId p₁ n₁ c₁ = makeId p₂ n₂ c₂) : c₁ = c₂ := by
  have hd := congrArg String.data h
  rw [makeId_data, makeId_data] at hd
  have hr : (natRepr c₁).data = (natRepr c₂).data :=
    sep_suffix_inj _ _ _ _ (colon_not_mem_natRepr c₁) (colon_not_mem_natRepr c₂) hd
  have : natRepr c₁ = natRepr c₂ := by
    cases hx : natRepr c₁ with
    | mk d₁ =>
      cases hy : natRepr c₂ with
      | mk d₂ =>
        rw [hx, hy] at hr
        simp only [] at hr
        exact congrArg String.mk (by simpa using hr)
  exact natRepr_inj this

/-! ### The ID-uniqueness invariant -/

/-- Every ID in the history was formed from some role prefix, name, and a
counter value no larger than the current counter. -/
def IdBound (ids : List String) (c : Nat) : Prop :=
  ∀ i ∈ ids, ∃ p n k, i = makeId p n k ∧ k ≤ c

/-- The connection's ID invariant: the history is bounded by the counter
and contains no duplicates. -/
def IdInv (w : World) : Prop :=
  IdBound w.generatedIds w.idCounter ∧ w.generatedIds.Nodup

theorem IdInv_mkWorld (topics : List TopicObj) (opened : Bool) :
    IdInv (mkWorld topics opened) := by
  constructor
  · intro i hi; simp [mkWorld] at hi
  · simp [mkWorld]

theorem IdInv_callOnConnection {w : World} (h : IdInv w) (c : Call) :
    IdInv (callOnConnection w c) := by
  unfold callOnConnection
  split <;> exact h

theorem IdInv_freshId {w : World} (h : IdInv w) (p n : String) :
    IdInv (freshId w p n).1 := by
  obtain ⟨hb, hnd⟩ := h
  constructor
  · show IdBound (w.generatedIds ++ [makeId p n (w.idCounter + 1)]) (w.idCounter + 1)
    intro i hi
    rcases List.mem_append.mp hi with hi | hi
    · obtain ⟨p', n', k, hik, hk⟩ := hb i hi
      exact ⟨p', n', k, hik, Nat.le_succ_of_le hk⟩
    · simp at hi
      exact ⟨p, n, w.idCounter + 1, hi, Nat.le_refl _⟩
  · show (w.generatedIds ++ [makeId p n (w.idCounter + 1)]).Nodup
    rw [List.nodup_append]
    refine ⟨hnd, List.nodup_singleton _, ?_⟩
    intro a ha hmem
    simp at hmem
    obtain ⟨p', n', k, hik, hk⟩ := hb a ha
    rw [hmem] at hik
    have : w.idCounter + 1 = k := makeId_counter_inj hik
    omega

theorem IdInv_subscribeOp {w : World} (h : IdInv w) (tid cb : Nat) :
    IdInv (subscribeOp w tid cb) := by
  unfold subscribeOp
  cases hget : w.topics.get? tid with
  | none => exact h
  | some t =>
    dsimp only
    apply IdInv_callOnConnection
    apply IdInv_freshId
    exact h

theorem IdInv_unsubscribeOp {w : World} (h : IdInv w) (tid : Nat) :
    IdInv (unsubscribeOp w tid) := by
  unfold unsubscribeOp
  cases hget : w.topics.get? tid with
  | none => exact h
  | some t =>
    dsimp only
    apply IdInv_callOnConnection
    apply IdInv_freshId
    exact h

theorem IdInv_advertiseOp {w : World} (h : IdInv w) (tid : Nat) :
    IdInv (advertiseOp w tid) := by
  unfold advertiseOp
  cases hget : w.topics.get? tid with
  | none => exact h
  | some t =>
    dsimp only
    apply IdInv_callOnConnection
    apply IdInv_freshId
    exact h

theorem IdInv_unadvertiseOp {w : World} (h : IdInv w) (tid : Nat) :
    IdInv (unadvertiseOp w tid) := by
  unfold unadvertiseOp
  cases hget : w.topics.get? tid with
  | none => exact h
  | some t =>
    dsimp only
    apply IdInv_callOnConnection
    apply IdInv_freshId
    exact h

theorem IdInv_publishOp {w : World} (h : IdInv w) (tid : Nat) (msg : JsValue) :
    IdInv (publishOp w tid msg) := by
  unfold publishOp
  cases hget : w.topics.get? tid with
  | none => exact h
  | some t =>
    by_cases hadv : t.isAdvertised
    · dsimp only
      simp only [hadv, if_true]
      apply IdInv_callOnConnection
      apply IdInv_freshId
      exact h
    · dsimp only
      simp only [hadv, if_false]
      apply IdInv_callOnConnection
      apply IdInv_freshId
      exact IdInv_advertiseOp h tid

theorem IdInv_callServiceCore {w : World} (h : IdInv w) (svc : String)
    (args : List JsValue) (mk : RosListener) :
    IdInv (callServiceCore w svc args mk).1 := by
  unfold callServiceCore
  dsimp only
  apply IdInv_callOnConnection
  exact IdInv_freshId h _ _

theorem IdInv_runOp {w : World} (h : IdInv w) (o : Op) : IdInv (runOp w o) := by
  cases o with
  | subscribe tid cb => exact IdInv_subscribeOp h tid cb
  | unsubscribe tid => exact IdInv_unsubscribeOp h tid
  | advertise tid => exact IdInv_advertiseOp h tid
  | unadvertise tid => exact IdInv_unadvertiseOp h tid
  | publish tid msg => exact IdInv_publishOp h tid msg
  | callService svc request cb => exact IdInv_callServiceCore h svc (request.map Prod.snd) _

theorem IdInv_runOps {w : World} (h : IdInv w) (ops : List Op) :
    IdInv (runOps w ops) := by
  induction ops generalizing w with
  | nil => exact h
  | cons o rest ih => exact ih (IdInv_runOp h o)

/-- **C2.** For every finite interleaving of subscribe, unsubscribe,
advertise, unadvertise, publish, and callService operations on one ROS
connection, the call IDs generated are pairwise distinct: each ID embeds
the decimal value of the connection's counter, which is incremented
before every ID is formed, so the history of generated IDs has no
duplicates and its set cardinality equals its length. -/
theorem callIds_pairwise_distinct (topics : List TopicObj) (opened : Bool)
    (ops : List Op) :
    (runOps (mkWorld topics opened) ops).generatedIds.Nodup ∧
      (runOps (mkWorld topics opened) ops).generatedIds.toFinset.card =
        (runOps (mkWorld topics opened) ops).generatedIds.length := by
  have h := IdInv_runOps (IdInv_mkWorld topics opened) ops
  exact ⟨h.2, List.toFinset_card_of_nodup h.2⟩

/-! ### Emitter lemmas -/

theorem filter_key_nil {l : List RosEntry} {k : String}
    (h : ∀ e ∈ l, e.key ≠ k) : l.filter (fun e => e.key == k) = [] := by
  rw [List.filter_eq_nil_iff]
  intro e he
  simpa [beq_iff_eq] using h e he

theorem filter_not_once_self {l : List RosEntry} {k : String}
    (h : ∀ e ∈ l, e.key ≠ k) : l.filter (fun e => !(e.key == k && e.once)) = l := by
  rw [List.filter_eq_self]
  intro e he
  have : (e.key == k) = false := beq_eq_false_iff_ne.mpr (h e he)
  simp [this]

theorem filter_not_key_self {l : List RosEntry} {k : String}
    (h : ∀ e ∈ l, e.key ≠ k) : l.filter (fun e => !(e.key == k)) = l := by
  rw [List.filter_eq_self]
  intro e he
  have : (e.key == k) = false := beq_eq_false_iff_ne.mpr (h e he)
  simp [this]

/-- Emitting on a key with no registered listener is a no-op. -/
theorem emit_no_listener {parse : JsValue → JsValue} {w : World} {k : String} {v : JsValue}
    (h : ∀ e ∈ w.rosListeners, e.key ≠ k) :
    emit parse w k v = w := by
  unfold emit
  dsimp only
  rw [filter_key_nil h, filter_not_once_self h]
  rfl

/-- Emitting on a key whose only listener is a trailing `once` entry runs
that listener exactly once and removes it. -/
theorem emit_append_once {parse : JsValue → JsValue} {w : World} {l : List RosEntry}
    {k : String} {lst : RosListener} {v : JsValue}
    (hw : w.rosListeners = l ++ [⟨k, lst, true⟩])
    (h : ∀ e ∈ l, e.key ≠ k) :
    emit parse w k v = runListener parse { w with rosListeners := l } lst v := by
  unfold emit
  dsimp only
  rw [hw, List.filter_append, List.filter_append, filter_key_nil h, filter_not_once_self h]
  simp

/-! ### C1: service call round trip -/

/-- **C1.** After `callService` generates call ID `X`, registers a
one-shot listener keyed by `X`, and sends the `call_service` envelope,
dispatching an inbound `service_response` with id `X` and values `V`
invokes the original callback exactly once, with a response object whose
own fields are copied from `V`; dispatching a second `service_response`
with the same id invokes no callback — the one-shot listener was consumed
by the first. -/
theorem serviceResponse_once (parse : JsValue → JsValue) (w : World) (svc : String)
    (request : List (String × JsValue)) (cb : Nat) (V : JsValue)
    (hopen : w.socketOpen = true)
    (hkey : ∀ e ∈ w.rosListeners, e.key ≠ makeId "call_service" svc (w.idCounter + 1)) :
    (callServiceOp w svc request cb).sent =
      w.sent ++ [Call.callService (makeId "call_service" svc (w.idCounter + 1)) svc
        (request.map Prod.snd)] ∧
    (dispatch parse (callServiceOp w svc request cb)
        (Inbound.serviceResponse (makeId "call_service" svc (w.idCounter + 1)) V)).invocations =
      w.invocations ++ [(cb, jsCopyFields V)] ∧
    (dispatch parse
        (dispatch parse (callServiceOp w svc request cb)
          (Inbound.serviceResponse (makeId "call_service" svc (w.idCounter + 1)) V))
        (Inbound.serviceResponse (makeId "call_service" svc (w.idCounter + 1)) V)).invocations =
      w.invocations ++ [(cb, jsCopyFields V)] := by
  have hred : callServiceOp w svc request cb =
      { w with idCounter := w.idCounter + 1,
               generatedIds := w.generatedIds ++ [makeId "call_service" svc (w.idCounter + 1)],
               rosListeners := w.rosListeners ++
                 [⟨makeId "call_service" svc (w.idCounter + 1), RosListener.serviceOnce cb, true⟩],
               sent := w.sent ++ [Call.callService (makeId "call_service" svc (w.idCounter + 1))
                 svc (request.map Prod.snd)] } := by
    unfold callServiceOp callServiceCore freshId callOnConnection
    dsimp only
    rw [if_pos hopen]
  have hw1 : (callServiceOp w svc request cb).rosListeners =
      w.rosListeners ++ [⟨makeId "call_service" svc (w.idCounter + 1),
        RosListener.serviceOnce cb, true⟩] := by
    rw [hred]
  have hinv1 : (callServiceOp w svc request cb).invocations = w.invocations := by
    rw [hred]
  have hsent1 : (callServiceOp w svc request cb).sent =
      w.sent ++ [Call.callService (makeId "call_service" svc (w.idCounter + 1)) svc
        (request.map Prod.snd)] := by
    rw [hred]
  have e1 := @emit_append_once parse _ _ _ _ V hw1 hkey
  have hinv2 : (emit parse (callServiceOp w svc request cb)
      (makeId "call_service" svc (w.idCounter + 1)) V).invocations =
      w.invocations ++ [(cb, jsCopyFields V)] := by
    rw [e1]
    show (callServiceOp w svc request cb).invocations ++ [(cb, jsCopyFields V)] = _
    rw [hinv1]
  have hros2 : (emit parse (callServiceOp w svc request cb)
      (makeId "call_service" svc (w.idCounter + 1)) V).rosListeners = w.rosListeners := by
    rw [e1]
    rfl
  have hnone : emit parse
      (emit parse (callServiceOp w svc request cb)
        (makeId "call_service" svc (w.idCounter + 1)) V)
      (makeId "call_service" svc (w.idCounter + 1)) V =
      emit parse (callServiceOp w svc request cb)
        (makeId "call_service" svc (w.idCounter + 1)) V :=
    emit_no_listener (fun e he => hkey e (by rwa [hros2] at he))
  refine ⟨hsent1, hinv2, ?_⟩
  show (emit parse (emit parse _ _ V) _ V).invocations = _
  rw [hnone, hinv2]

/-- Witness for C1 at a concrete service call and response. -/
theorem serviceResponse_once_witness :
    (mkWorld [] true).socketOpen = true ∧
    (dispatch (fun v => v)
        (callServiceOp (mkWorld [] true) "/add_two_ints" [("a", JsValue.num 1), ("b", JsValue.num 2)] 0)
        (Inbound.serviceResponse (makeId "call_service" "/add_two_ints" 1)
          (JsValue.arr [JsValue.num 3]))).invocations =
      [(0, jsCopyFields (JsValue.arr [JsValue.num 3]))] := by
  refine ⟨rfl, ?_⟩
  have h := (serviceResponse_once (fun v => v) (mkWorld [] true) "/add_two_ints"
    [("a", JsValue.num 1), ("b", JsValue.num 2)] 0 (JsValue.arr [JsValue.num 3])
    rfl (by simp [mkWorld])).2.1
  simpa [mkWorld] using h

/-! ### C4: deferred sends -/

/-- A sequence of `callOnConnection`s while the socket is closed sends
nothing and registers one one-shot `'connection'` listener per envelope,
in call order. -/
theorem foldl_callOnConnection_closed (cs : List Call) :
    ∀ w : World, w.socketOpen = false →
      (cs.foldl callOnConnection w).socketOpen = false ∧
      (cs.foldl callOnConnection w).rosListeners =
        w.rosListeners ++ cs.map (fun c => ⟨"connection", RosListener.deferredSend c, true⟩) ∧
      (cs.foldl callOnConnection w).sent = w.sent := by
  induction cs with
  | nil => intro w hw; simp [hw]
  | cons c rest ih =>
    intro w hw
    have h1 : callOnConnection w c =
        { w with rosListeners :=
            w.rosListeners ++ [⟨"connection", RosListener.deferredSend c, true⟩] } := by
      unfold callOnConnection
      rw [if_neg]
      rw [hw]
      simp
    rw [List.foldl_cons, h1]
    obtain ⟨ha, hb, hc⟩ := ih
      { w with rosListeners :=
          w.rosListeners ++ [⟨"connection", RosListener.deferredSend c, true⟩] } hw
    refine ⟨ha, ?_, hc⟩
    rw [hb]
    simp

/-- Folding the deferred-send listeners over a world appends their
captured envelopes to the socket log, in listener order. -/
theorem foldl_runListener_deferred (parse : JsValue → JsValue) (v : JsValue) (cs : List Call) :
    ∀ w : World,
      (cs.map RosListener.deferredSend).foldl (fun acc l => runListener parse acc l v) w =
        { w with sent := w.sent ++ cs } := by
  induction cs with
  | nil => intro w; simp
  | cons c rest ih =>
    intro w
    rw [List.map_cons, List.foldl_cons]
    have h1 : runListener parse w (RosListener.deferredSend c) v =
        { w with sent := w.sent ++ [c] } := rfl
    rw [h1, ih]
    simp

/-- The socket opening flushes exactly the deferred envelopes, in
registration order, and consumes their listeners. -/
theorem fireConnection_flush (parse : JsValue → JsValue) {w : World}
    {l : List RosEntry} {cs : List Call}
    (hros : w.rosListeners = l ++ cs.map (fun c => ⟨"connection", RosListener.deferredSend c, true⟩))
    (hl : ∀ e ∈ l, e.key ≠ "connection") :
    fireConnection parse w =
      { w with socketOpen := true, rosListeners := l, sent := w.sent ++ cs } := by
  have hfd : (cs.map (fun c => (⟨"connection", RosListener.deferredSend c, true⟩ : RosEntry))).filter
      (fun e => e.key == "connection") =
      cs.map (fun c => ⟨"connection", RosListener.deferredSend c, true⟩) := by
    rw [List.filter_eq_self]
    intro e he
    simp only [List.mem_map] at he
    obtain ⟨a, _, rfl⟩ := he
    simp
  have hfd2 : (cs.map (fun c => (⟨"connection", RosListener.deferredSend c, true⟩ : RosEntry))).filter
      (fun e => !(e.key == "connection" && e.once)) = [] := by
    rw [List.filter_eq_nil_iff]
    intro e he
    simp only [List.mem_map] at he
    obtain ⟨a, _, rfl⟩ := he
    simp
  unfold fireConnection emit
  dsimp only
  rw [hros, List.filter_append, List.filter_append, filter_key_nil hl,
    filter_not_once_self hl, hfd, hfd2, List.nil_append, List.append_nil, List.map_map]
  have hcomp : (RosEntry.listener ∘ fun c =>
      (⟨"connection", RosListener.deferredSend c, true⟩ : RosEntry)) =
      RosListener.deferredSend := rfl
  rw [hcomp, foldl_runListener_deferred]

/-- **C4.** An envelope passed to `send` while the socket is open is
transmitted immediately; while the socket is closed, each envelope
registers its own one-shot deferred send, nothing is written yet, the
next transition to open flushes the deferred envelopes in
first-registered-first-fired order, and a second disconnect/reconnect
cycle replays nothing (the one-shot listeners were consumed). -/
theorem deferred_send_once (parse : JsValue → JsValue) (w : World) (cs : List Call)
    (hclosed : w.socketOpen = false)
    (hnoconn : ∀ e ∈ w.rosListeners, e.key ≠ "connection") :
    (∀ w' : World, w'.socketOpen = true → ∀ d,
      (callOnConnection w' d).sent = w'.sent ++ [d] ∧
      (callOnConnection w' d).rosListeners = w'.rosListeners) ∧
    (cs.foldl callOnConnection w).sent = w.sent ∧
    (cs.foldl callOnConnection w).rosListeners =
      w.rosListeners ++ cs.map (fun d => ⟨"connection", RosListener.deferredSend d, true⟩) ∧
    (fireConnection parse (cs.foldl callOnConnection w)).sent = w.sent ++ cs ∧
    (fireConnection parse (cs.foldl callOnConnection w)).rosListeners = w.rosListeners ∧
    (fireConnection parse
        { fireConnection parse (cs.foldl callOnConnection w) with socketOpen := false }).sent =
      w.sent ++ cs := by
  obtain ⟨ha, hb, hc⟩ := foldl_callOnConnection_closed cs w hclosed
  have hflush := fireConnection_flush parse hb hnoconn
  refine ⟨?_, hc, hb, ?_, ?_, ?_⟩
  · intro w' hw' d
    unfold callOnConnection
    rw [if_pos hw']
    exact ⟨rfl, rfl⟩
  · rw [hflush, hc]
  · rw [hflush]
  · have h2 : (fireConnection parse
        { fireConnection parse (cs.foldl callOnConnection w) with socketOpen := false }) =
        { { fireConnection parse (cs.foldl callOnConnection w) with
            socketOpen := false } with socketOpen := true } := by
      apply emit_no_listener
      intro e he
      apply hnoconn e
      have : (fireConnection parse (cs.foldl callOnConnection w)).rosListeners =
          w.rosListeners := by rw [hflush]
      rw [← this]
      exact he
    rw [h2]
    show (fireConnection parse (cs.foldl callOnConnection w)).sent = w.sent ++ cs
    rw [hflush, hc]

/-- Witness for C4 at a concrete closed-socket world and two envelopes. -/
theorem deferred_send_once_witness :
    (mkWorld [] false).socketOpen = false ∧
    (fireConnection (fun v => v)
        ([Call.unsubscribe "a" "/t", Call.unsubscribe "b" "/t"].foldl callOnConnection
          (mkWorld [] false))).sent =
      [Call.unsubscribe "a" "/t", Call.unsubscribe "b" "/t"] := by
  refine ⟨rfl, ?_⟩
  have h := (deferred_send_once (fun v => v) (mkWorld [] false)
    [Call.unsubscribe "a" "/t", Call.unsubscribe "b" "/t"] rfl (by simp [mkWorld])).2.2.2.1
  simpa [mkWorld] using h

/-! ### C5: publish-before-advertise -/

/-- **C5.** Calling `publish(msg)` on a channel whose advertised flag is
false sends exactly one `advertise` envelope followed by exactly one
`publish` envelope and leaves the flag true; if the flag is already true,
publish sends only the one `publish` envelope. -/
theorem publish_lazy_advertise (w : World) (tid : Nat) (t : TopicObj) (msg : JsValue)
    (ht : w.topics.get? tid = some t) (hopen : w.socketOpen = true) :
    ((publishOp w tid msg).topics.get? tid).map TopicObj.isAdvertised = some true ∧
    (publishOp w tid msg).sent = w.sent ++
      (if t.isAdvertised then
        [Call.publish (makeId "publish" t.name (w.idCounter + 1)) t.name msg]
      else
        [Call.advertise (makeId "advertise" t.name (w.idCounter + 1)) t.messageType t.name,
         Call.publish (makeId "publish" t.name (w.idCounter + 2)) t.name msg]) := by
  have hadvred : advertiseOp w tid =
      { w with idCounter := w.idCounter + 1,
               generatedIds := w.generatedIds ++ [makeId "advertise" t.name (w.idCounter + 1)],
               sent := w.sent ++
                 [Call.advertise (makeId "advertise" t.name (w.idCounter + 1)) t.messageType t.name],
               topics := w.topics.set tid { t with isAdvertised := true } } := by
    unfold advertiseOp freshId callOnConnection
    rw [ht]
    dsimp only
    rw [if_pos hopen]
  by_cases hadv : t.isAdvertised
  · have hred : publishOp w tid msg =
        { w with idCounter := w.idCounter + 1,
                 generatedIds := w.generatedIds ++ [makeId "publish" t.name (w.idCounter + 1)],
                 sent := w.sent ++
                   [Call.publish (makeId "publish" t.name (w.idCounter + 1)) t.name msg] } := by
      unfold publishOp freshId callOnConnection
      rw [ht]
      dsimp only
      rw [if_pos hadv, if_pos hopen]
    rw [hred]
    refine ⟨?_, by simp [hadv]⟩
    show (w.topics.get? tid).map TopicObj.isAdvertised = some true
    rw [ht]
    simp [hadv]
  · have hred : publishOp w tid msg =
        { w with idCounter := w.idCounter + 2,
                 generatedIds := (w.generatedIds ++ [makeId "advertise" t.name (w.idCounter + 1)]) ++
                   [makeId "publish" t.name (w.idCounter + 2)],
                 topics := w.topics.set tid { t with isAdvertised := true },
                 sent := (w.sent ++
                   [Call.advertise (makeId "advertise" t.name (w.idCounter + 1)) t.messageType t.name]) ++
                   [Call.publish (makeId "publish" t.name (w.idCounter + 2)) t.name msg] } := by
      unfold publishOp
      rw [ht]
      dsimp only
      rw [if_neg hadv, hadvred]
      unfold freshId callOnConnection
      dsimp only
      rw [if_pos hopen]
    rw [hred]
    constructor
    · show ((w.topics.set tid { t with isAdvertised := true }).get? tid).map
        TopicObj.isAdvertised = some true
      rw [List.get?_set_eq, ht]
      rfl
    · show _ = w.sent ++ _
      rw [if_neg hadv]
      simp

/-- Witness for C5 at a concrete fresh (non-advertised) topic channel. -/
theorem publish_lazy_advertise_witness :
    (mkWorld [⟨"/t", "std_msgs/String", "none", 0, false, []⟩] true).topics.get? 0 =
      some ⟨"/t", "std_msgs/String", "none", 0, false, []⟩ ∧
    (publishOp (mkWorld [⟨"/t", "std_msgs/String", "none", 0, false, []⟩] true) 0
        (JsValue.str "hi")).sent =
      [Call.advertise (makeId "advertise" "/t" 1) "std_msgs/String" "/t",
       Call.publish (makeId "publish" "/t" 2) "/t" (JsValue.str "hi")] := by
  refine ⟨rfl, ?_⟩
  have h := (publish_lazy_advertise (mkWorld [⟨"/t", "std_msgs/String", "none", 0, false, []⟩] true)
    0 ⟨"/t", "std_msgs/String", "none", 0, false, []⟩ (JsValue.str "hi") rfl rfl).2
  simpa [mkWorld] using h

/-! ### Subscribe/unsubscribe lemmas (C6, C10) -/

theorem subscribeOp_red {w : World} {t : TopicObj} {tid : Nat} (cb : Nat)
    (ht : w.topics.get? tid = some t) (hopen : w.socketOpen = true) :
    subscribeOp w tid cb =
      { w with topics := w.topics.set tid { t with localHandlers := t.localHandlers ++ [cb] },
               rosListeners := w.rosListeners ++ [⟨t.name, RosListener.topicRelay tid, false⟩],
               idCounter := w.idCounter + 1,
               generatedIds := w.generatedIds ++ [makeId "subscribe" t.name (w.idCounter + 1)],
               sent := w.sent ++ [Call.subscribe (makeId "subscribe" t.name (w.idCounter + 1))
                 t.messageType t.name t.compression t.throttle_rate] } := by
  unfold subscribeOp freshId callOnConnection
  rw [ht]
  dsimp only
  rw [if_pos hopen]

theorem unsubscribeOp_red {w : World} {t : TopicObj} {tid : Nat}
    (ht : w.topics.get? tid = some t) (hopen : w.socketOpen = true) :
    unsubscribeOp w tid =
      { w with rosListeners := w.rosListeners.filter (fun e => !(e.key == t.name)),
               idCounter := w.idCounter + 1,
               generatedIds := w.generatedIds ++ [makeId "unsubscribe" t.name (w.idCounter + 1)],
               sent := w.sent ++
                 [Call.unsubscribe (makeId "unsubscribe" t.name (w.idCounter + 1)) t.name] } := by
  unfold unsubscribeOp freshId callOnConnection
  rw [ht]
  dsimp only
  rw [if_pos hopen]

/-- Effect of a sequence of `subscribe(cb)` calls on one channel: the
local message handlers accumulate in order, one relay listener per call
is registered under the topic name, nothing is invoked, and the counter
advances once per call. -/
theorem subscribe_foldl (cbs : List Nat) :
    ∀ (w : World) (t : TopicObj) (tid : Nat),
      w.topics.get? tid = some t → w.socketOpen = true →
      (cbs.foldl (fun acc cb => subscribeOp acc tid cb) w).topics.get? tid =
          some { t with localHandlers := t.localHandlers ++ cbs } ∧
      (cbs.foldl (fun acc cb => subscribeOp acc tid cb) w).rosListeners =
          w.rosListeners ++
            List.replicate cbs.length ⟨t.name, RosListener.topicRelay tid, false⟩ ∧
      (cbs.foldl (fun acc cb => subscribeOp acc tid cb) w).socketOpen = true ∧
      (cbs.foldl (fun acc cb => subscribeOp acc tid cb) w).invocations = w.invocations ∧
      (cbs.foldl (fun acc cb => subscribeOp acc tid cb) w).idCounter =
        w.idCounter + cbs.length := by
  induction cbs with
  | nil =>
    intro w t tid ht hopen
    refine ⟨?_, by simp, hopen, rfl, rfl⟩
    rw [List.foldl_nil, ht]
    simp
  | cons cb rest ih =>
    intro w t tid ht hopen
    rw [List.foldl_cons, subscribeOp_red cb ht hopen]
    have ht' : ({ w with
        topics := w.topics.set tid { t with localHandlers := t.localHandlers ++ [cb] },
        rosListeners := w.rosListeners ++ [⟨t.name, RosListener.topicRelay tid, false⟩],
        idCounter := w.idCounter + 1,
        generatedIds := w.generatedIds ++ [makeId "subscribe" t.name (w.idCounter + 1)],
        sent := w.sent ++ [Call.subscribe (makeId "subscribe" t.name (w.idCounter + 1))
          t.messageType t.name t.compression t.throttle_rate] } : World).topics.get? tid =
        some { t with localHandlers := t.localHandlers ++ [cb] } := by
      show (w.topics.set tid _).get? tid = _
      rw [List.get?_set_eq, ht]
      rfl
    obtain ⟨h1, h2, h3, h4, h5⟩ := ih _ _ tid ht' hopen
    refine ⟨?_, ?_, h3, h4, ?_⟩
    · rw [h1]
      simp
    · rw [h2]
      simp [List.replicate_succ, List.append_assoc]
    · rw [h5]
      show w.idCounter + 1 + rest.length = w.idCounter + (rest.length + 1)
      omega

theorem filter_replicate_key (n : Nat) (nm : String) (tid : Nat) :
    (List.replicate n (⟨nm, RosListener.topicRelay tid, false⟩ : RosEntry)).filter
      (fun e => !(e.key == nm)) = [] := by
  induction n with
  | zero => simp
  | succ n ih =>
    rw [List.replicate_succ, List.filter_cons]
    simp [ih]

/-! ### C6 (amended): unsubscribe removes the router listeners -/

/-- **C6 (amended).** After any sequence of `subscribe` calls on one
channel, a single `unsubscribe` removes every router listener keyed by
the channel's topic name (so, while no further subscribe intervenes, a
later inbound publish on that topic name invokes no callback) and sends
exactly one wire-level `unsubscribe` envelope; the handlers registered on
the channel's local `'message'` event are, however, not removed. -/
theorem unsubscribe_removes_router (parse : JsValue → JsValue) (w : World)
    (tid : Nat) (t : TopicObj) (cbs : List Nat) (msg : JsValue)
    (ht : w.topics.get? tid = some t) (hopen : w.socketOpen = true)
    (hn : ∀ e ∈ w.rosListeners, e.key ≠ t.name) :
    (unsubscribeOp (cbs.foldl (fun acc cb => subscribeOp acc tid cb) w) tid).rosListeners =
      w.rosListeners ∧
    dispatch parse (unsubscribeOp (cbs.foldl (fun acc cb => subscribeOp acc tid cb) w) tid)
        (Inbound.publish t.name msg) =
      unsubscribeOp (cbs.foldl (fun acc cb => subscribeOp acc tid cb) w) tid ∧
    (unsubscribeOp (cbs.foldl (fun acc cb => subscribeOp acc tid cb) w) tid).sent =
      (cbs.foldl (fun acc cb => subscribeOp acc tid cb) w).sent ++
        [Call.unsubscribe (makeId "unsubscribe" t.name (w.idCounter + cbs.length + 1)) t.name] ∧
    ((unsubscribeOp (cbs.foldl (fun acc cb => subscribeOp acc tid cb) w) tid).topics.get?
        tid).map TopicObj.localHandlers = some (t.localHandlers ++ cbs) := by
  obtain ⟨h1, h2, h3, h4, h5⟩ := subscribe_foldl cbs w t tid ht hopen
  have hu := unsubscribeOp_red h1 h3
  have hros : (unsubscribeOp (cbs.foldl (fun acc cb => subscribeOp acc tid cb) w)
      tid).rosListeners = w.rosListeners := by
    rw [hu]
    show (cbs.foldl (fun acc cb => subscribeOp acc tid cb) w).rosListeners.filter
      (fun e => !(e.key == t.name)) = _
    rw [h2, List.filter_append, filter_not_key_self hn, filter_replicate_key]
    simp
  refine ⟨hros, ?_, ?_, ?_⟩
  · exact emit_no_listener (fun e he => hn e (by rwa [hros] at he))
  · rw [hu]
    show _ ++ [Call.unsubscribe (makeId "unsubscribe" t.name _) t.name] = _
    rw [h5]
  · rw [hu]
    show ((cbs.foldl (fun acc cb => subscribeOp acc tid cb) w).topics.get? tid).map
      TopicObj.localHandlers = _
    rw [h1]
    rfl

/-- Counterexample to C6 as stated: after `subscribe(c1)`,
`unsubscribe()`, `subscribe(c2)`, a later inbound publish on the topic
name invokes `c1` again — the handler `c1` registered before the
unsubscribe was never removed from the channel's local `'message'` event,
only the router listeners were — and indeed the channel still holds a
local handler immediately after the unsubscribe. -/
theorem unsubscribe_removes_router_counterexample :
    (dispatch (fun v => v)
        (subscribeOp
          (unsubscribeOp
            (subscribeOp (mkWorld [⟨"/t", "std_msgs/String", "none", 0, false, []⟩] true) 0 1)
            0)
          0 2)
        (Inbound.publish "/t" JsValue.null)).invocations =
      [(1, JsValue.obj []), (2, JsValue.obj [])] ∧
    ((unsubscribeOp
        (subscribeOp (mkWorld [⟨"/t", "std_msgs/String", "none", 0, false, []⟩] true) 0 1)
        0).topics.get? 0).map TopicObj.localHandlers = some [1] := by
  constructor
  · rfl
  · rfl

/-- Witness for the amended C6 at a concrete two-subscriber channel. -/
theorem unsubscribe_removes_router_witness :
    (unsubscribeOp
        ([1, 2].foldl (fun acc cb => subscribeOp acc 0 cb)
          (mkWorld [⟨"/t", "std_msgs/String", "none", 0, false, []⟩] true))
        0).rosListeners = [] ∧
    (unsubscribeOp
        ([1, 2].foldl (fun acc cb => subscribeOp acc 0 cb)
          (mkWorld [⟨"/t", "std_msgs/String", "none", 0, false, []⟩] true))
        0).sent =
      ([1, 2].foldl (fun acc cb => subscribeOp acc 0 cb)
          (mkWorld [⟨"/t", "std_msgs/String", "none", 0, false, []⟩] true)).sent ++
        [Call.unsubscribe (makeId "unsubscribe" "/t" 3) "/t"] := by
  have h := unsubscribe_removes_router (fun v => v)
    (mkWorld [⟨"/t", "std_msgs/String", "none", 0, false, []⟩] true) 0
    ⟨"/t", "std_msgs/String", "none", 0, false, []⟩ [1, 2] JsValue.null rfl rfl
    (by simp [mkWorld])
  exact ⟨h.1, h.2.2.1⟩

/-! ### C10: duplicated delivery across the two listener layers -/

theorem join_replicate_countP {α : Type} (p : α → Bool) (B : List α) :
    ∀ n : Nat, ((List.replicate n B).join).countP p = n * B.countP p := by
  intro n
  induction n with
  | zero => simp
  | succ n ih =>
    rw [List.replicate_succ]
    show (B ++ (List.replicate n B).join).countP p = _
    rw [List.countP_append, ih, Nat.succ_mul]
    omega

theorem join_replicate_length {α : Type} (B : List α) :
    ∀ n : Nat, ((List.replicate n B).join).length = n * B.length := by
  intro n
  induction n with
  | zero => simp
  | succ n ih =>
    rw [List.replicate_succ]
    show (B ++ (List.replicate n B).join).length = _
    rw [List.length_append, ih, Nat.succ_mul]
    omega

/-- Folding `n` copies of the relay listener for topic `tid` delivers the
wrapped message once to each of the topic's local handlers, `n` times
over. -/
theorem relay_foldl (parse : JsValue → JsValue) (v : JsValue) (tid : Nat) (t : TopicObj) :
    ∀ (n : Nat) (w : World), w.topics.get? tid = some t →
      (List.replicate n (RosListener.topicRelay tid)).foldl
          (fun acc l => runListener parse acc l v) w =
        { w with invocations := w.invocations ++
            (List.replicate n (t.localHandlers.map (fun h => (h, jsCopyFields v)))).join } := by
  intro n
  induction n with
  | zero => intro w ht; simp
  | succ n ih =>
    intro w ht
    simp only [List.replicate_succ, List.foldl_cons]
    have h1 : runListener parse w (RosListener.topicRelay tid) v =
        { w with invocations := w.invocations ++
            t.localHandlers.map (fun h => (h, jsCopyFields v)) } := by
      unfold runListener
      dsimp only
      rw [ht]
    rw [h1, ih { w with invocations := w.invocations ++
      t.localHandlers.map (fun h => (h, jsCopyFields v)) } ht]
    show _ = { w with invocations := w.invocations ++
      ((t.localHandlers.map (fun h => (h, jsCopyFields v))) ::
        List.replicate n (t.localHandlers.map (fun h => (h, jsCopyFields v)))).join }
    simp [List.append_assoc]

/-- Emitting an inbound publish payload on a topic name whose listeners
are `n` relay entries (plus unrelated keys) appends `n` blocks of
local-handler invocations. -/
theorem emit_relays (parse : JsValue → JsValue) {w : World} {l : List RosEntry}
    {nm : String} {tid n : Nat} {t : TopicObj} (v : JsValue)
    (hros : w.rosListeners = l ++ List.replicate n ⟨nm, RosListener.topicRelay tid, false⟩)
    (hl : ∀ e ∈ l, e.key ≠ nm)
    (ht : w.topics.get? tid = some t) :
    (emit parse w nm v).invocations =
      w.invocations ++
        (List.replicate n (t.localHandlers.map (fun h => (h, jsCopyFields v)))).join := by
  have hkeep : (List.replicate n (⟨nm, RosListener.topicRelay tid, false⟩ : RosEntry)).filter
      (fun e => e.key == nm) = List.replicate n ⟨nm, RosListener.topicRelay tid, false⟩ := by
    rw [List.filter_eq_self]
    intro e he
    rw [List.eq_of_mem_replicate he]
    simp
  have hkeep2 : (List.replicate n (⟨nm, RosListener.topicRelay tid, false⟩ : RosEntry)).filter
      (fun e => !(e.key == nm && e.once)) =
      List.replicate n ⟨nm, RosListener.topicRelay tid, false⟩ := by
    rw [List.filter_eq_self]
    intro e he
    rw [List.eq_of_mem_replicate he]
    simp
  unfold emit
  dsimp only
  rw [hros, List.filter_append, List.filter_append, filter_key_nil hl,
    filter_not_once_self hl, hkeep, hkeep2, List.nil_append, List.map_replicate]
  rw [relay_foldl parse v tid t n
    { w with rosListeners :=
        l ++ List.replicate n ⟨nm, RosListener.topicRelay tid, false⟩ } ht]

/-- **C10.** When `subscribe` has been called `n ≥ 2` times on one
channel with distinct callbacks, a single inbound publish for that topic
name invokes each registered callback `n` times — `n²` invocations in
total — because every subscribe adds both its own local `'message'`
handler and its own router relay that re-emits `'message'`, and
deliveries multiply across the two layers. -/
theorem subscribe_double_delivery (parse : JsValue → JsValue) (w : World) (tid : Nat)
    (t : TopicObj) (cbs : List Nat) (msg : JsValue)
    (ht : w.topics.get? tid = some t) (hopen : w.socketOpen = true)
    (h0 : t.localHandlers = [])
    (hn : ∀ e ∈ w.rosListeners, e.key ≠ t.name)
    (hnodup : cbs.Nodup) (hlen : 2 ≤ cbs.length) :
    (dispatch parse (cbs.foldl (fun acc cb => subscribeOp acc tid cb) w)
        (Inbound.publish t.name msg)).invocations =
      w.invocations ++
        (List.replicate cbs.length (cbs.map (fun cb => (cb, jsCopyFields msg)))).join ∧
    (∀ cb ∈ cbs,
      ((List.replicate cbs.length (cbs.map (fun c => (c, jsCopyFields msg)))).join).countP
        (fun p => p.1 == cb) = cbs.length) ∧
    ((List.replicate cbs.length (cbs.map (fun c => (c, jsCopyFields msg)))).join).length =
      cbs.length * cbs.length := by
  obtain ⟨h1, h2, h3, h4, h5⟩ := subscribe_foldl cbs w t tid ht hopen
  refine ⟨?_, ?_, ?_⟩
  · show (emit parse _ t.name msg).invocations = _
    rw [emit_relays parse msg h2 hn h1, h4]
    show w.invocations ++
      (List.replicate cbs.length ((t.localHandlers ++ cbs).map
        (fun h => (h, jsCopyFields msg)))).join = _
    rw [h0, List.nil_append]
  · intro cb hcb
    rw [join_replicate_countP, List.countP_map]
    have hc : List.countP ((fun p => p.1 == cb) ∘ (fun c => (c, jsCopyFields msg))) cbs =
        List.count cb cbs := rfl
    rw [hc]
    have hle : cbs.count cb ≤ 1 := List.nodup_iff_count_le_one.mp hnodup cb
    have hpos : 0 < cbs.count cb := List.count_pos_iff.mpr hcb
    have h1c : cbs.count cb = 1 := by omega
    rw [h1c, Nat.mul_one]
  · rw [join_replicate_length, List.length_map]

/-- Witness for C10: two subscribers, one inbound publish, four
invocations (each callback twice). -/
theorem subscribe_double_delivery_witness :
    (dispatch (fun v => v)
        ([1, 2].foldl (fun acc cb => subscribeOp acc 0 cb)
          (mkWorld [⟨"/t", "std_msgs/String", "none", 0, false, []⟩] true))
        (Inbound.publish "/t" (JsValue.obj [("x", JsValue.num 5)]))).invocations =
      (List.replicate 2 ([1, 2].map
        (fun cb => (cb, jsCopyFields (JsValue.obj [("x", JsValue.num 5)]))))).join ∧
    ((List.replicate 2 ([1, 2].map
        (fun c => (c, jsCopyFields (JsValue.obj [("x", JsValue.num 5)]))))).join).length = 4 := by
  have h := subscribe_double_delivery (fun v => v)
    (mkWorld [⟨"/t", "std_msgs/String", "none", 0, false, []⟩] true) 0
    ⟨"/t", "std_msgs/String", "none", 0, false, []⟩ [1, 2]
    (JsValue.obj [("x", JsValue.num 5)]) rfl rfl rfl (by simp [mkWorld])
    (by decide) (by decide)
  refine ⟨?_, ?_⟩
  · have h1 := h.1
    simpa [mkWorld] using h1
  · have h3 := h.2.2
    simpa using h3

/-! ### C3 (corrected): malformed frames abort the handler -/

/-- Counterexample to C3 as stated: processing a frame whose payload is
not well-formed JSON does not drop the frame and surface an error — the
uncaught parse exception aborts the message handler (`onMessage` wraps
neither `JSON.parse` call in a `try`/`catch`), so the handler ends in the
error outcome and no error event is emitted. -/
theorem malformed_frame_counterexample :
    onMessage (fun v => v) (mkWorld [] true) Frame.malformed = Except.error () := rfl

/-- **C3 (amended).** A frame whose payload is not well-formed JSON (at
the outer level, or at the inner level after png decompression) aborts
the message handler with the parse exception: nothing is dispatched, no
error event is emitted by the client, and no listener or socket state
changes — so subsequent well-formed frames are still processed normally
from the unchanged connection state. -/
theorem malformed_frame_aborts_handler (parse : JsValue → JsValue) (w : World) :
    onMessage parse w Frame.malformed = Except.error () ∧
    onMessage parse w (Frame.png (Except.error ())) = Except.error () ∧
    ∀ e : Inbound, onMessage parse w (Frame.ok e) = Except.ok (dispatch parse w e) :=
  ⟨rfl, rfl, fun _ => rfl⟩

/-! ### C9: topic construction validation -/

/-- **C9.** A Topic Channel constructed with `throttle_rate = -5` gets an
effective throttle rate of `0` and a warning is emitted; one constructed
with `compression = 'gzip'` keeps `'gzip'` as configured and a warning is
emitted; neither configuration error is rejected (the constructor always
returns a channel object). -/
theorem topic_validation (o₁ o₂ : TopicOptions)
    (h₁ : o₁.throttle_rate = some (-5)) (h₂ : o₂.compression = some "gzip") :
    (mkTopic o₁).1.throttle_rate = 0 ∧
    TWarning.negThrottle (-5) ∈ (mkTopic o₁).2 ∧
    (mkTopic o₂).1.compression = "gzip" ∧
    TWarning.badCompression "gzip" ∈ (mkTopic o₂).2 := by
  refine ⟨?_, ?_, ?_, ?_⟩
  · unfold mkTopic
    rw [h₁]
    dsimp only
    rw [if_pos (show (-5 : Int) < 0 by norm_num)]
  · unfold mkTopic
    rw [h₁]
    dsimp only
    rw [if_pos (show (-5 : Int) < 0 by norm_num)]
    exact List.mem_append_right _ (List.mem_singleton_self _)
  · unfold mkTopic
    rw [h₂]
    dsimp only
    rw [if_neg (show ¬("gzip" = "") by decide)]
  · unfold mkTopic
    rw [h₂]
    dsimp only
    rw [if_neg (show ¬("gzip" = "") by decide),
      if_pos (show "gzip" ≠ "" ∧ "gzip" ≠ "png" ∧ "gzip" ≠ "none" by decide)]
    exact List.mem_append_left _ (List.mem_singleton_self _)

/-- Witness for C9 at concrete option objects. -/
theorem topic_validation_witness :
    ({ throttle_rate := some (-5) } : TopicOptions).throttle_rate = some (-5) ∧
    (mkTopic { throttle_rate := some (-5) }).1.throttle_rate = 0 ∧
    (mkTopic { compression := some "gzip" }).1.compression = "gzip" := by
  have h := topic_validation { throttle_rate := some (-5) } { compression := some "gzip" }
    rfl rfl
  exact ⟨rfl, h.1, h.2.2.1⟩

/-! ### C8 (corrected): the param client protocol -/

theorem callServiceCore_red (w : World) (svc : String) (args : List JsValue)
    (mk : RosListener) (hopen : w.socketOpen = true) :
    (callServiceCore w svc args mk).1 =
      { w with idCounter := w.idCounter + 1,
               generatedIds := w.generatedIds ++ [makeId "call_service" svc (w.idCounter + 1)],
               rosListeners := w.rosListeners ++
                 [⟨makeId "call_service" svc (w.idCounter + 1), mk, true⟩],
               sent := w.sent ++
                 [Call.callService (makeId "call_service" svc (w.idCounter + 1)) svc args] } := by
  unfold callServiceCore freshId callOnConnection
  dsimp only
  rw [if_pos hopen]

/-- Counterexample to C8 as stated: the request `param.get` sends does
not carry the empty string in its `value` field — it carries
`JSON.stringify('')`, the two-character string consisting of two double
quotes, which is not the empty string. -/
theorem param_get_value_counterexample :
    (paramGetOp (mkWorld [] true) "max_vel" 0).sent =
      [Call.callService (makeId "call_service" "/rosapi/get_param" 1) "/rosapi/get_param"
        [JsValue.str "max_vel", JsValue.str "\"\""]] ∧
    ("\"\"" : String) ≠ "" :=
  ⟨rfl, by decide⟩

/-- **C8 (amended).** `param.get` issues a `call_service` request to
`/rosapi/get_param` whose request fields, in key order, are the param
name and `JSON.stringify('')` — the two-character JSON encoding of the
empty string, not the empty string itself — and on response JSON-decodes
the returned `value` field before invoking the callback with the decoded
value; `param.set` calls `/rosapi/set_param` with the name and the
JSON-encoded value, and its response invokes nothing (the registered
callback is the empty function). `parse` stands for the host `JSON.parse`
applied to the field. -/
theorem param_client_protocol (parse : JsValue → JsValue) (w : World) (nm : String)
    (cb : Nat) (V v : JsValue)
    (hopen : w.socketOpen = true)
    (hkeyg : ∀ e ∈ w.rosListeners,
      e.key ≠ makeId "call_service" "/rosapi/get_param" (w.idCounter + 1))
    (hkeys : ∀ e ∈ w.rosListeners,
      e.key ≠ makeId "call_service" "/rosapi/set_param" (w.idCounter + 1)) :
    (paramGetOp w nm cb).sent = w.sent ++
      [Call.callService (makeId "call_service" "/rosapi/get_param" (w.idCounter + 1))
        "/rosapi/get_param" [JsValue.str nm, JsValue.str (jsonStringifyString "")]] ∧
    (dispatch parse (paramGetOp w nm cb)
        (Inbound.serviceResponse
          (makeId "call_service" "/rosapi/get_param" (w.idCounter + 1)) V)).invocations =
      w.invocations ++ [(cb, parse (jsGetField (jsCopyFields V) "value"))] ∧
    (paramSetOp w nm v).sent = w.sent ++
      [Call.callService (makeId "call_service" "/rosapi/set_param" (w.idCounter + 1))
        "/rosapi/set_param" [JsValue.str nm, JsValue.str (jsonStringify v)]] ∧
    (dispatch parse (paramSetOp w nm v)
        (Inbound.serviceResponse
          (makeId "call_service" "/rosapi/set_param" (w.idCounter + 1)) V)).invocations =
      w.invocations := by
  have hg : paramGetOp w nm cb =
      { w with idCounter := w.idCounter + 1,
               generatedIds := w.generatedIds ++
                 [makeId "call_service" "/rosapi/get_param" (w.idCounter + 1)],
               rosListeners := w.rosListeners ++
                 [⟨makeId "call_service" "/rosapi/get_param" (w.idCounter + 1),
                   RosListener.paramGetOnce cb, true⟩],
               sent := w.sent ++
                 [Call.callService (makeId "call_service" "/rosapi/get_param" (w.idCounter + 1))
                   "/rosapi/get_param"
                   [JsValue.str nm, JsValue.str (jsonStringifyString "")]] } := by
    unfold paramGetOp
    rw [callServiceCore_red w "/rosapi/get_param" _ _ hopen]
    rfl
  have hs : paramSetOp w nm v =
      { w with idCounter := w.idCounter + 1,
               generatedIds := w.generatedIds ++
                 [makeId "call_service" "/rosapi/set_param" (w.idCounter + 1)],
               rosListeners := w.rosListeners ++
                 [⟨makeId "call_service" "/rosapi/set_param" (w.idCounter + 1),
                   RosListener.ignoreOnce, true⟩],
               sent := w.sent ++
                 [Call.callService (makeId "call_service" "/rosapi/set_param" (w.idCounter + 1))
                   "/rosapi/set_param"
                   [JsValue.str nm, JsValue.str (jsonStringify v)]] } := by
    unfold paramSetOp
    rw [callServiceCore_red w "/rosapi/set_param" _ _ hopen]
    rfl
  refine ⟨by rw [hg], ?_, by rw [hs], ?_⟩
  · show (emit parse (paramGetOp w nm cb) _ V).invocations = _
    rw [hg, emit_append_once rfl hkeyg]
    rfl
  · show (emit parse (paramSetOp w nm v) _ V).invocations = _
    rw [hs, emit_append_once rfl hkeys]
    rfl

/-- Witness for the amended C8 at a concrete param round trip. -/
theorem param_client_protocol_witness :
    (paramGetOp (mkWorld [] true) "max_vel" 0).sent =
      [Call.callService (makeId "call_service" "/rosapi/get_param" 1) "/rosapi/get_param"
        [JsValue.str "max_vel", JsValue.str (jsonStringifyString "")]] ∧
    (dispatch (fun x => x) (paramGetOp (mkWorld [] true) "max_vel" 0)
        (Inbound.serviceResponse (makeId "call_service" "/rosapi/get_param" 1)
          (JsValue.obj [("value", JsValue.str "7")]))).invocations =
      [(0, jsGetField (jsCopyFields (JsValue.obj [("value", JsValue.str "7")])) "value")] ∧
    (dispatch (fun x => x) (paramSetOp (mkWorld [] true) "max_vel" (JsValue.num 7))
        (Inbound.serviceResponse (makeId "call_service" "/rosapi/set_param" 1)
          (JsValue.obj []))).invocations = [] := by
  have h := param_client_protocol (fun x => x) (mkWorld [] true) "max_vel" 0
    (JsValue.obj [("value", JsValue.str "7")]) (JsValue.num 7) rfl
    (by simp [mkWorld]) (by simp [mkWorld])
  refine ⟨?_, ?_, ?_⟩
  · have h1 := h.1
    simpa [mkWorld] using h1
  · have h2 := h.2.1
    simpa [mkWorld] using h2
  · have h4 := h.2.2.2
    simpa [mkWorld] using h4

/-! ### C7: the action goal lifecycle -/

theorem lookup_updateGoal_self :
    ∀ (goals : List (String × Goal)) (gid : String) (g gPrev : Goal),
      goals.lookup gid = some gPrev → (updateGoal goals gid g).lookup gid = some g := by
  intro goals
  induction goals with
  | nil => intro gid g gPrev h; simp [List.lookup] at h
  | cons p rest ih =>
    intro gid g gPrev h
    obtain ⟨k, v⟩ := p
    by_cases hk : k = gid
    · subst hk
      show List.lookup k ((if k = k then (k, g) else (k, v)) :: updateGoal rest k g) = some g
      rw [if_pos rfl, List.lookup_cons, beq_self_eq_true]
    · have hbk : (gid == k) = false := beq_eq_false_iff_ne.mpr (fun hEq => hk hEq.symm)
      show List.lookup gid ((if k = gid then (k, g) else (k, v)) :: updateGoal rest gid g) =
        some g
      rw [if_neg hk, List.lookup_cons, hbk]
      have h' : List.lookup gid rest = some gPrev := by
        rw [List.lookup_cons, hbk] at h
        exact h
      exact ih gid g gPrev h'

theorem lookup_updateGoal_ne :
    ∀ (goals : List (String × Goal)) (gid gid' : String) (g : Goal), gid' ≠ gid →
      (updateGoal goals gid' g).lookup gid = goals.lookup gid := by
  intro goals
  induction goals with
  | nil => intro gid gid' g h; rfl
  | cons p rest ih =>
    intro gid gid' g h
    obtain ⟨k, v⟩ := p
    by_cases hk : k = gid'
    · subst hk
      have hbk : (gid == k) = false := beq_eq_false_iff_ne.mpr (fun hEq => h hEq.symm)
      show List.lookup gid ((if k = k then (k, g) else (k, v)) :: updateGoal rest k g) = _
      rw [if_pos rfl, List.lookup_cons, hbk, List.lookup_cons, hbk]
      exact ih gid k g h
    · show List.lookup gid ((if k = gid' then (k, g) else (k, v)) :: updateGoal rest gid' g) = _
      rw [if_neg hk, List.lookup_cons, List.lookup_cons]
      by_cases hgk : gid = k
      · subst hgk
        rw [beq_self_eq_true]
      · have hbk : (gid == k) = false := beq_eq_false_iff_ne.mpr hgk
        rw [hbk]
        exact ih gid gid' g h

theorem goalEmitStatus_found {st : ActionState} {gid : String} {g : Goal} (s : GoalStatus)
    (h : getGoal st gid = some g) :
    getGoal (goalEmitStatus st gid s) gid = some { g with status := some s } ∧
    (goalEmitStatus st gid s).events = st.events ++ [AEvent.status gid s] := by
  unfold goalEmitStatus
  rw [h]
  dsimp only
  refine ⟨?_, rfl⟩
  show (updateGoal st.goals gid _).lookup gid = _
  exact lookup_updateGoal_self st.goals gid _ g h

theorem goalEmitStatus_other {st : ActionState} {gid gid' : String} (s : GoalStatus)
    (h : gid' ≠ gid) :
    getGoal (goalEmitStatus st gid' s) gid = getGoal st gid ∧
    ∃ suf, (goalEmitStatus st gid' s).events = st.events ++ suf := by
  unfold goalEmitStatus
  cases hx : getGoal st gid' with
  | none => exact ⟨rfl, ⟨[], by simp⟩⟩
  | some g' =>
    dsimp only
    refine ⟨?_, ⟨[AEvent.status gid' s], rfl⟩⟩
    show (updateGoal st.goals gid' _).lookup gid = st.goals.lookup gid
    exact lookup_updateGoal_ne st.goals gid gid' _ h

theorem statusHandle_no_match :
    ∀ (l : List GoalStatus) (st : ActionState) (gid : String),
      (∀ e ∈ l, e.goal_id_id ≠ gid) →
      getGoal (statusHandle st l) gid = getGoal st gid ∧
      ∃ suf, (statusHandle st l).events = st.events ++ suf := by
  intro l
  induction l with
  | nil => intro st gid _; exact ⟨rfl, ⟨[], by simp [statusHandle]⟩⟩
  | cons e rest ih =>
    intro st gid h
    have he : e.goal_id_id ≠ gid := h e (List.mem_cons_self e rest)
    obtain ⟨h1, suf1, h2⟩ := @goalEmitStatus_other st gid e.goal_id_id e he
    obtain ⟨h3, suf2, h4⟩ :=
      ih (goalEmitStatus st e.goal_id_id e) gid (fun x hx => h x (List.mem_cons_of_mem e hx))
    refine ⟨?_, ⟨suf1 ++ suf2, ?_⟩⟩
    · show getGoal (statusHandle (goalEmitStatus st e.goal_id_id e) rest) gid = _
      rw [h3, h1]
    · show (statusHandle (goalEmitStatus st e.goal_id_id e) rest).events = _
      rw [h4, h2, List.append_assoc]

theorem statusHandle_match :
    ∀ (l : List GoalStatus) (st : ActionState) (gid : String) (g : Goal) (s : GoalStatus),
      getGoal st gid = some g →
      l.filter (fun e => e.goal_id_id == gid) = [s] →
      (∃ g', getGoal (statusHandle st l) gid = some g' ∧ g'.status = some s) ∧
      AEvent.status gid s ∈ (statusHandle st l).events := by
  intro l
  induction l with
  | nil => intro st gid g s _ hf; simp at hf
  | cons e rest ih =>
    intro st gid g s hg hf
    rw [List.filter_cons] at hf
    by_cases hm : (e.goal_id_id == gid) = true
    · rw [if_pos hm] at hf
      simp only [List.cons.injEq] at hf
      obtain ⟨rfl, hrest⟩ := hf
      have hgid : e.goal_id_id = gid := beq_iff_eq.mp hm
      subst hgid
      have hnorest : ∀ x ∈ rest, x.goal_id_id ≠ e.goal_id_id := by
        intro x hx
        have hh := List.filter_eq_nil_iff.mp hrest x hx
        simpa [beq_iff_eq] using hh
      obtain ⟨hA, hB⟩ := goalEmitStatus_found e hg
      obtain ⟨hC, sufD, hD⟩ :=
        statusHandle_no_match rest (goalEmitStatus st e.goal_id_id e) e.goal_id_id hnorest
      constructor
      · refine ⟨{ g with status := some e }, ?_, rfl⟩
        show getGoal (statusHandle (goalEmitStatus st e.goal_id_id e) rest) e.goal_id_id = _
        rw [hC, hA]
      · show AEvent.status e.goal_id_id e ∈
          (statusHandle (goalEmitStatus st e.goal_id_id e) rest).events
        rw [hD, hB]
        exact List.mem_append_left _
          (List.mem_append_right _ (List.mem_singleton_self _))
    · rw [if_neg hm] at hf
      have hne : e.goal_id_id ≠ gid := fun hEq => hm (by rw [hEq]; exact beq_self_eq_true gid)
      obtain ⟨h1, _, _⟩ := @goalEmitStatus_other st gid e.goal_id_id e hne
      exact ih (goalEmitStatus st e.goal_id_id e) gid g s (by rw [h1]; exact hg) hf

theorem resultHandle_found {st : ActionState} {g : Goal} (rm : ResultMsg)
    (hg : getGoal st rm.status.goal_id_id = some g) :
    getGoal (resultHandle st rm) rm.status.goal_id_id =
      some { g with status := some rm.status, isFinished := true, result := some rm.result } ∧
    (resultHandle st rm).events =
      st.events ++ [AEvent.status rm.status.goal_id_id rm.status,
                    AEvent.result rm.status.goal_id_id rm.result] := by
  unfold resultHandle
  dsimp only
  rw [hg]
  obtain ⟨hA, hB⟩ := goalEmitStatus_found rm.status hg
  rw [hA]
  dsimp only
  constructor
  · show (updateGoal (goalEmitStatus st rm.status.goal_id_id rm.status).goals _ _).lookup _ = _
    exact lookup_updateGoal_self _ _ _ _ hA
  · show (goalEmitStatus st rm.status.goal_id_id rm.status).events ++ _ = _
    rw [hB, List.append_assoc]
    rfl

/-- **C7.** For a goal in the action client's goal table: an inbound
status message whose `status_list` contains the entry with matching
`goal_id.id` sets the goal's status and emits a status event; an inbound
result message with matching `status.goal_id.id` emits the enclosing
status before the result payload, sets `isFinished`, records the result,
and emits a result event; and the timer armed by `Goal.send(timeout)`
firing with no result yet received emits a goal-level timeout event while
`isFinished` stays false. -/
theorem action_goal_lifecycle (st : ActionState) (gid : String) (g : Goal)
    (l : List GoalStatus) (s : GoalStatus) (rm : ResultMsg)
    (hg : getGoal st gid = some g)
    (hmatch : l.filter (fun e => e.goal_id_id == gid) = [s])
    (hrm : rm.status.goal_id_id = gid)
    (hfin : g.isFinished = false) :
    ((∃ g', getGoal (statusHandle st l) gid = some g' ∧ g'.status = some s) ∧
      AEvent.status gid s ∈ (statusHandle st l).events) ∧
    (getGoal (resultHandle st rm) gid =
        some { g with status := some rm.status, isFinished := true,
                      result := some rm.result } ∧
      (resultHandle st rm).events =
        st.events ++ [AEvent.status gid rm.status, AEvent.result gid rm.result]) ∧
    ((goalTimerFire st gid).events = st.events ++ [AEvent.timeout gid] ∧
      getGoal (goalTimerFire st gid) gid = some g) := by
  refine ⟨statusHandle_match l st gid g s hg hmatch, ?_, ?_⟩
  · have h := resultHandle_found rm (g := g) (by rw [hrm]; exact hg)
    rw [hrm] at h
    exact h
  · unfold goalTimerFire
    rw [hg]
    dsimp only
    rw [if_neg (by rw [hfin]; simp)]
    exact ⟨rfl, hg⟩

/-- Witness for C7 at a one-goal table, a matching status entry, a
matching result message, and a pending timer. -/
theorem action_goal_lifecycle_witness :
    getGoal (⟨[("g1", ⟨false, none, none, none⟩)], []⟩ : ActionState) "g1" =
      some ⟨false, none, none, none⟩ ∧
    (goalTimerFire (⟨[("g1", ⟨false, none, none, none⟩)], []⟩ : ActionState) "g1").events =
      [AEvent.timeout "g1"] ∧
    getGoal (resultHandle (⟨[("g1", ⟨false, none, none, none⟩)], []⟩ : ActionState)
        ⟨⟨"g1", JsValue.null⟩, JsValue.num 1⟩) "g1" =
      some ⟨true, some ⟨"g1", JsValue.null⟩, some (JsValue.num 1), none⟩ := by
  have h := action_goal_lifecycle (⟨[("g1", ⟨false, none, none, none⟩)], []⟩ : ActionState)
    "g1" ⟨false, none, none, none⟩
    [⟨"g1", JsValue.null⟩] ⟨"g1", JsValue.null⟩ ⟨⟨"g1", JsValue.null⟩, JsValue.num 1⟩
    rfl rfl rfl rfl
  exact ⟨rfl, h.2.2.1, h.2.1.1⟩

end RWT

